import Mathlib

/-!
Verification of the frame-capture controller of `agent.py` (voice-ai).

The embedding models the class `AssistantFnc` and its methods:

* `capture_and_add_image` (agent.py:72-99): the callable tool.  Its control
  flow — early returns for a missing chat context and for a missing video
  publication, a `try` body that polls for a frame, encodes it and appends it
  to the chat context, an `except` clause converting any internal fault into
  the string `"Error: " ++ e`, and a `finally` clause that unsubscribes and
  clears the frame slot — is reproduced as a total Lean function.
* `_get_video_publication` (agent.py:101-107): nested first-match loops over
  remote participants and their track publications.
* `_subscribe_and_capture_frame` (agent.py:109-115): `set_subscribed(True)`
  followed by at most ten check-then-sleep(0.5 s) iterations.
* `_unsubscribe_from_video` (agent.py:117-120): `set_subscribed(False)`.
* `process_video_stream` (agent.py:31-44): the track-subscribed callback that
  stores the first frame of the stream, saves it, and breaks.
* `save_photo` (agent.py:46-70): RGBX decode and JPEG save under a filename
  derived from `datetime.now().strftime("%Y%m%d-%H%M%S")`.

Modelling conventions.  The cooperative scheduler is modelled by an arrival
oracle `arr : Nat → Option VideoFrame` giving the frame (if any) that the
background callback writes into `latest_video_frame` during the n-th sleep of
the poll loop.  Exceptions inside the `try` body are modelled by a fault
oracle (`Faults`): the two fallible external calls in the body —
`llm.ChatImage(...)` construction and `chat_ctx.append(...)` — may raise with
an arbitrary message, which the embedding threads through `Except`.
`set_subscribed` is a subscription-flag toggle and is modelled as
non-raising.  The room is modelled as its list of remote participants: the
entry point assigns `fnc_ctx.room = ctx.room` before the assistant starts, so
every invocation of the tool observes a room object.  Side effects
(subscription toggles, chat appends) are recorded in an explicit trace, and
the number of `asyncio.sleep(0.5)` calls is returned so that elapsed time can
be stated.
-/

namespace VoiceAgent

/-- A decoded video frame: width, height and raw pixel bytes
(`video_frame.width`, `video_frame.height`, `video_frame.data`). -/
structure VideoFrame where
  width : Nat
  height : Nat
  data : List Nat
deriving DecidableEq, Repr

/-- `rtc.TrackKind`: only the video/audio distinction matters here
(`rtc.TrackKind.KIND_VIDEO` at agent.py:105). -/
inductive TrackKind where
  | video
  | audio
deriving DecidableEq, Repr

/-- A remote track publication: its server id and kind.  The subscription
flag lives in the agent-visible state (`AgentState.subs`), keyed by `sid`. -/
structure TrackPublication where
  sid : Nat
  kind : TrackKind
deriving DecidableEq, Repr

/-- A remote participant with its track publications, in the insertion order
of `participant.track_publications.values()`. -/
structure Participant where
  trackPublications : List TrackPublication
deriving DecidableEq, Repr

/-- One entry of the chat context: the initial system prompt is a text entry;
`capture_and_add_image` appends image entries
(`chat_ctx.append(images=[chat_image], role="user")`). -/
inductive ChatEntry where
  | text (role : String) (content : String)
  | images (role : String) (frames : List VideoFrame)
deriving DecidableEq, Repr

/-- An observable side effect of the capture operation. -/
inductive Effect where
  | setSubscribed (sid : Nat) (value : Bool)
  | appendImages (role : String) (frames : List VideoFrame)
deriving DecidableEq, Repr

/-- The mutable state of `AssistantFnc` visible to the capture operation:
the room's remote participants, the chat context (`none` models
`chat_ctx is None`), the shared `latest_video_frame` slot, and the
subscription flag of each publication, keyed by sid. -/
structure AgentState where
  participants : List Participant
  chatCtx : Option (List ChatEntry)
  latestVideoFrame : Option VideoFrame
  subs : Nat → Bool

/-- Fault oracle for the two fallible external calls inside the `try` body of
`capture_and_add_image`: `some msg` means the call raises with message
`msg`. -/
structure Faults where
  encode : Option String
  append : Option String
deriving DecidableEq, Repr

/-- `publication.set_subscribed(v)`: update the subscription flag of `sid`. -/
def setSub (subs : Nat → Bool) (sid : Nat) (v : Bool) : Nat → Bool :=
  fun x => if x = sid then v else subs x

/-- First video publication among one participant's publications, in order
(inner loop of `_get_video_publication`, agent.py:104-106). -/
def findVideoPub : List TrackPublication → Option TrackPublication
  | [] => none
  | p :: ps => if p.kind = TrackKind.video then some p else findVideoPub ps

/-- `_get_video_publication` (agent.py:101-107): iterate the remote
participants in order, and within each its publications in order, returning
the first publication of video kind, else `none`. -/
def getVideoPublication : List Participant → Option TrackPublication
  | [] => none
  | part :: rest =>
    match findVideoPub part.trackPublications with
    | some p => some p
    | none => getVideoPublication rest

/-- Modelled from the spec: "selects the first available video publication
(first participant, first video publication found — no priority or user
selection)".  Stated over the concatenation of all participants'
publication lists, for comparison with `getVideoPublication`. -/
def specFirstVideoPublication (ps : List Participant) : Option TrackPublication :=
  (ps.map Participant.trackPublications).flatten.find?
    (fun pub => decide (pub.kind = TrackKind.video))

/-- The poll loop of `_subscribe_and_capture_frame` (agent.py:112-115):
`for _ in range(10): if self.latest_video_frame: break; await asyncio.sleep(0.5)`.
`fuel` is the remaining iteration budget, `sleeps` the number of sleeps
performed so far, `slot` the current `latest_video_frame`.  During the n-th
sleep the background callback may write `arr n` into the slot.  Returns the
final slot together with the total number of sleeps performed. -/
def pollLoop (arr : Nat → Option VideoFrame) :
    Nat → Nat → Option VideoFrame → Option VideoFrame × Nat
  | 0, sleeps, slot => (slot, sleeps)
  | fuel + 1, sleeps, slot =>
    if slot.isSome then (slot, sleeps)
    else
      match arr sleeps with
      | some f => pollLoop arr fuel (sleeps + 1) (some f)
      | none => pollLoop arr fuel (sleeps + 1) slot

/-- The success message of `capture_and_add_image` (agent.py:93). -/
def successMessage (f : VideoFrame) : String :=
  "Image captured and added to context. Dimensions: " ++
    toString f.width ++ "x" ++ toString f.height

/-- The body of the `try` block after the poll loop (agent.py:86-93): check
the frame slot, build a `ChatImage`, append it to the chat context with role
"user", and produce the confirmation string.  `Except.error` models a raised
exception (fault oracle).  Returns the result string, the updated chat
context, and the append effects performed. -/
def tryBody (ctx : List ChatEntry) (slot : Option VideoFrame) (faults : Faults) :
    Except String (String × List ChatEntry × List Effect) :=
  match slot with
  | none => Except.ok ("No video frame available", ctx, [])
  | some frame =>
    match faults.encode with
    | some msg => Except.error msg
    | none =>
      match faults.append with
      | some msg => Except.error msg
      | none =>
        Except.ok (successMessage frame,
          ctx ++ [ChatEntry.images "user" [frame]],
          [Effect.appendImages "user" [frame]])

/-- Outcome of one invocation of `capture_and_add_image`: the returned
string, the post state, the trace of side effects, and the number of
`asyncio.sleep(0.5)` calls performed. -/
structure CaptureOutcome where
  result : String
  state : AgentState
  trace : List Effect
  sleeps : Nat

/-- `capture_and_add_image` (agent.py:72-99).  Early return when `chat_ctx`
is not set; early return when `_get_video_publication` yields nothing; then
`set_subscribed(True)`, the ten-iteration poll loop, the `try` body, the
`except` clause turning any internal fault into `"Error: " ++ e`, and the
`finally` clause performing `set_subscribed(False)` and clearing
`latest_video_frame` on every path. -/
def capture_and_add_image (st : AgentState) (arr : Nat → Option VideoFrame)
    (faults : Faults) : CaptureOutcome :=
  match st.chatCtx with
  | none => ⟨"Error: chat_ctx is not set", st, [], 0⟩
  | some ctx =>
    match getVideoPublication st.participants with
    | none => ⟨"No video track available", st, [], 0⟩
    | some pub =>
      let poll := pollLoop arr 10 0 st.latestVideoFrame
      match tryBody ctx poll.1 faults with
      | Except.ok res =>
        ⟨res.1,
         { st with chatCtx := some res.2.1,
                   latestVideoFrame := none,
                   subs := setSub (setSub st.subs pub.sid true) pub.sid false },
         Effect.setSubscribed pub.sid true :: res.2.2 ++
           [Effect.setSubscribed pub.sid false],
         poll.2⟩
      | Except.error e =>
        ⟨"Error: " ++ e,
         { st with latestVideoFrame := none,
                   subs := setSub (setSub st.subs pub.sid true) pub.sid false },
         [Effect.setSubscribed pub.sid true, Effect.setSubscribed pub.sid false],
         poll.2⟩

/-- A wall-clock timestamp at the resolution used by
`datetime.now().strftime("%Y%m%d-%H%M%S")` (agent.py:65): one second. -/
structure Timestamp where
  year : Nat
  month : Nat
  day : Nat
  hour : Nat
  minute : Nat
  second : Nat
deriving DecidableEq, Repr

/-- Field bounds under which the strftime rendering is the usual
fixed-width zero-padded one (real calendar timestamps satisfy them). -/
def Timestamp.Valid (t : Timestamp) : Prop :=
  t.year < 10000 ∧ t.month < 100 ∧ t.day < 100 ∧
    t.hour < 100 ∧ t.minute < 100 ∧ t.second < 100

instance (t : Timestamp) : Decidable t.Valid := by
  unfold Timestamp.Valid; infer_instance

/-- Two-digit zero-padded decimal rendering (strftime `%m`, `%d`, `%H`,
`%M`, `%S`), as a character list. -/
def pad2 (n : Nat) : List Char :=
  [Nat.digitChar (n / 10), Nat.digitChar (n % 10)]

/-- Four-digit zero-padded decimal rendering (strftime `%Y` for calendar
years), as a character list. -/
def pad4 (n : Nat) : List Char :=
  [Nat.digitChar (n / 1000), Nat.digitChar (n / 100 % 10),
   Nat.digitChar (n / 10 % 10), Nat.digitChar (n % 10)]

/-- `datetime.now().strftime("%Y%m%d-%H%M%S")` as a character list. -/
def strftimeCompact (t : Timestamp) : List Char :=
  pad4 t.year ++ pad2 t.month ++ pad2 t.day ++ ['-'] ++
    pad2 t.hour ++ pad2 t.minute ++ pad2 t.second

/-- The filename `f"images/image-{timestamp}.jpg"` (agent.py:66). -/
def photoFilename (t : Timestamp) : String :=
  String.mk ("images/image-".data ++ strftimeCompact t ++ ".jpg".data)

/-- `save_photo` (agent.py:46-70): nothing is written when the frame is
`None`; the RGBX raw decode succeeds when the buffer holds four bytes per
pixel, in which case the JPEG is written under the timestamp-derived
filename; a decode failure is caught, logged and nothing is written.
Returns the filename written, if any. -/
def save_photo (t : Timestamp) (frame : Option VideoFrame) : Option String :=
  match frame with
  | none => none
  | some f =>
    if f.data.length = f.width * f.height * 4 then some (photoFilename t)
    else none

/-- One invocation of the photo-saving step of a capture: the frame that
arrived and the wall-clock time at which `save_photo` ran. -/
structure SavePhotoCall where
  time : Timestamp
  frame : VideoFrame
deriving DecidableEq, Repr

/-- The file written by one photo-saving invocation. -/
def savedFilename (c : SavePhotoCall) : Option String :=
  save_photo c.time (some c.frame)

/-- `process_video_stream` (agent.py:31-44): iterate the frame events of the
stream; on the first one, store it in `latest_video_frame`, call
`save_photo` on it, and `break`.  `t` is the wall-clock time of the save.
Returns the final frame slot and the list of `save_photo` results. -/
def process_video_stream (t : Timestamp) (slot : Option VideoFrame) :
    List VideoFrame → Option VideoFrame × List (Option String)
  | [] => (slot, [])
  | frame :: _rest => (some frame, [save_photo t (some frame)])

/-! Concrete fixtures used by the witness theorems. -/

/-- A concrete video publication (sid 0). -/
def wPub : TrackPublication := ⟨0, TrackKind.video⟩

/-- A room with one remote participant publishing one video track, an
initialised (empty) chat context, an empty frame slot, and all subscription
flags off. -/
def wState : AgentState := ⟨[⟨[wPub]⟩], some [], none, fun _ => false⟩

/-- A room whose only remote participant publishes only an audio track. -/
def wStateNoVideo : AgentState :=
  ⟨[⟨[⟨1, TrackKind.audio⟩]⟩], some [], none, fun _ => false⟩

/-- A concrete 4x3 RGBX frame. -/
def wFrame : VideoFrame := ⟨4, 3, List.replicate 48 0⟩

/-- An arrival oracle under which no frame ever arrives. -/
def noArrivals : Nat → Option VideoFrame := fun _ => none

/-- An arrival oracle under which frame `f` arrives during sleep `k` and
nothing else arrives. -/
def arrivalAt (k : Nat) (f : VideoFrame) : Nat → Option VideoFrame :=
  fun n => if n = k then some f else none

/-- The fault oracle under which no external call raises. -/
def noFaults : Faults := ⟨none, none⟩

/-- A concrete wall-clock second. -/
def cexTime : Timestamp := ⟨2024, 5, 6, 7, 8, 9⟩

/-- A first photo-saving invocation at `cexTime`. -/
def cexCall1 : SavePhotoCall := ⟨cexTime, ⟨1, 1, [0, 0, 0, 0]⟩⟩

/-- A second, distinct photo-saving invocation during the same second. -/
def cexCall2 : SavePhotoCall := ⟨cexTime, ⟨1, 1, [9, 9, 9, 9]⟩⟩

/-- A concrete second, one tick after `cexTime`. -/
def wTime2 : Timestamp := ⟨2024, 5, 6, 7, 8, 10⟩

/-! Helper lemmas about the poll loop and publication selection. -/

/-- A nonempty slot stops the poll loop immediately, with no further
sleeps. -/
theorem pollLoop_of_isSome (arr : Nat → Option VideoFrame) (fuel s : Nat)
    (f : VideoFrame) : pollLoop arr fuel s (some f) = (some f, s) := by
  cases fuel <;> simp [pollLoop]

/-- With no arrivals the poll loop exhausts its fuel, sleeping once per
iteration. -/
theorem pollLoop_no_arrival (arr : Nat → Option VideoFrame)
    (h : ∀ n, arr n = none) :
    ∀ fuel s, pollLoop arr fuel s none = (none, s + fuel) := by
  intro fuel
  induction fuel with
  | zero => intro s; simp [pollLoop]
  | succ n ih =>
    intro s
    simp only [pollLoop, Option.isSome_none, Bool.false_eq_true, if_false, h s,
      ih (s + 1)]
    simp only [Prod.mk.injEq, true_and]
    omega

/-- The poll loop never sleeps more than its fuel. -/
theorem pollLoop_sleeps_le (arr : Nat → Option VideoFrame) :
    ∀ fuel s slot, (pollLoop arr fuel s slot).2 ≤ s + fuel := by
  intro fuel
  induction fuel with
  | zero => intro s slot; simp [pollLoop]
  | succ n ih =>
    intro s slot
    cases slot with
    | some f => simp [pollLoop]
    | none =>
      simp only [pollLoop, Option.isSome_none, Bool.false_eq_true, if_false]
      cases harr : arr s with
      | some f => exact Nat.le_trans (ih (s + 1) (some f)) (by omega)
      | none => exact Nat.le_trans (ih (s + 1) none) (by omega)

/-- If the first arrival happens during sleep `k` with `k` within the fuel
budget, the poll loop returns that frame after `k + 1` sleeps. -/
theorem pollLoop_first_arrival (arr : Nat → Option VideoFrame) (f : VideoFrame) :
    ∀ k fuel s, k < fuel → (∀ j, j < k → arr (s + j) = none) →
      arr (s + k) = some f →
      pollLoop arr fuel s none = (some f, s + k + 1) := by
  intro k
  induction k with
  | zero =>
    intro fuel s hk hnone hf
    obtain ⟨n, rfl⟩ : ∃ n, fuel = n + 1 := ⟨fuel - 1, by omega⟩
    rw [Nat.add_zero] at hf
    simp only [pollLoop, Option.isSome_none, Bool.false_eq_true, if_false, hf]
    exact pollLoop_of_isSome arr n (s + 1) f
  | succ m ih =>
    intro fuel s hk hnone hf
    obtain ⟨n, rfl⟩ : ∃ n, fuel = n + 1 := ⟨fuel - 1, by omega⟩
    have h0 : arr s = none := by
      have := hnone 0 (by omega)
      rwa [Nat.add_zero] at this
    simp only [pollLoop, Option.isSome_none, Bool.false_eq_true, if_false, h0]
    have hrec := ih n (s + 1) (by omega)
      (fun j hj => by
        have := hnone (j + 1) (by omega)
        rwa [show s + (j + 1) = s + 1 + j by omega] at this)
      (by rwa [show s + (m + 1) = s + 1 + m by omega] at hf)
    rw [hrec]
    simp only [Prod.mk.injEq, true_and]
    omega

/-- Any frame returned by a poll loop that started with an empty slot arrived
through the oracle during one of the loop's sleeps. -/
theorem pollLoop_arrival_of_some (arr : Nat → Option VideoFrame)
    (fr : VideoFrame) :
    ∀ fuel s, (pollLoop arr fuel s none).1 = some fr →
      ∃ k, s ≤ k ∧ k < s + fuel ∧ arr k = some fr := by
  intro fuel
  induction fuel with
  | zero => intro s h; simp [pollLoop] at h
  | succ n ih =>
    intro s h
    simp only [pollLoop, Option.isSome_none, Bool.false_eq_true, if_false] at h
    cases harr : arr s with
    | some f =>
      simp only [harr, pollLoop_of_isSome] at h
      exact ⟨s, Nat.le_refl s, by omega, by rw [harr, h]⟩
    | none =>
      rw [harr] at h
      obtain ⟨k, hk1, hk2, hk3⟩ := ih (s + 1) h
      exact ⟨k, by omega, by omega, hk3⟩

/-- The inner loop of `_get_video_publication` is a first-match search. -/
theorem findVideoPub_eq_find? (l : List TrackPublication) :
    findVideoPub l = l.find? (fun pub => decide (pub.kind = TrackKind.video)) := by
  induction l with
  | nil => rfl
  | cons p ps ih =>
    by_cases h : p.kind = TrackKind.video
    · simp [findVideoPub, List.find?_cons, h]
    · simp [findVideoPub, List.find?_cons, h, ih]

/-- `_get_video_publication` agrees with the first-match search over the
concatenated publication lists. -/
theorem getVideoPublication_eq_spec_aux (ps : List Participant) :
    getVideoPublication ps = specFirstVideoPublication ps := by
  induction ps with
  | nil => rfl
  | cons part rest ih =>
    simp only [getVideoPublication, specFirstVideoPublication, List.map_cons,
      List.flatten_cons, findVideoPub_eq_find?]
    rw [List.find?_append]
    cases h : part.trackPublications.find?
        (fun pub => decide (pub.kind = TrackKind.video)) with
    | some p => simp [h]
    | none =>
      simp only [h, Option.none_or]
      exact ih

/-- A normally-terminating `try` body produced either the timeout message or
the success message of some frame. -/
theorem tryBody_ok_result (ctx : List ChatEntry) (slot : Option VideoFrame)
    (faults : Faults) (res : String × List ChatEntry × List Effect)
    (h : tryBody ctx slot faults = Except.ok res) :
    res.1 = "No video frame available" ∨ ∃ f, res.1 = successMessage f := by
  cases slot with
  | none =>
    simp only [tryBody, Except.ok.injEq] at h
    left
    rw [← h]
  | some frame =>
    cases he : faults.encode with
    | some msg => simp [tryBody, he] at h
    | none =>
      cases ha : faults.append with
      | some msg => simp [tryBody, he, ha] at h
      | none =>
        simp only [tryBody, he, ha, Except.ok.injEq] at h
        right
        exact ⟨frame, by rw [← h]⟩

/-- A normally-terminating `try` body appends at most one image entry, and
only when the slot held that frame at the end of the poll loop. -/
theorem tryBody_append_mem (ctx : List ChatEntry) (slot : Option VideoFrame)
    (faults : Faults) (res : String × List ChatEntry × List Effect)
    (fr : VideoFrame) (role : String)
    (h : tryBody ctx slot faults = Except.ok res)
    (hm : Effect.appendImages role [fr] ∈ res.2.2) : slot = some fr := by
  cases slot with
  | none =>
    simp only [tryBody, Except.ok.injEq] at h
    rw [← h] at hm
    simp at hm
  | some frame =>
    cases he : faults.encode with
    | some msg => simp [tryBody, he] at h
    | none =>
      cases ha : faults.append with
      | some msg => simp [tryBody, he, ha] at h
      | none =>
        simp only [tryBody, he, ha, Except.ok.injEq] at h
        rw [← h] at hm
        simp only [List.mem_singleton, Effect.appendImages.injEq,
          List.cons.injEq, and_true] at hm
        rw [hm.2]

/-! Injectivity of the timestamp-derived filename at second resolution. -/

/-- `Nat.digitChar` is injective on decimal digits. -/
theorem digitChar_inj {a b : Nat} (ha : a < 10) (hb : b < 10)
    (h : Nat.digitChar a = Nat.digitChar b) : a = b := by
  interval_cases a <;> interval_cases b <;> revert h <;> decide

/-- Two-digit zero-padded rendering is injective below 100. -/
theorem pad2_inj {a b : Nat} (ha : a < 100) (hb : b < 100)
    (h : pad2 a = pad2 b) : a = b := by
  simp only [pad2, List.cons.injEq, and_true] at h
  have e1 : a / 10 = b / 10 := digitChar_inj (by omega) (by omega) h.1
  have e2 : a % 10 = b % 10 :=
    digitChar_inj (Nat.mod_lt _ (by omega)) (Nat.mod_lt _ (by omega)) h.2
  omega

/-- Four-digit zero-padded rendering is injective below 10000. -/
theorem pad4_inj {a b : Nat} (ha : a < 10000) (hb : b < 10000)
    (h : pad4 a = pad4 b) : a = b := by
  simp only [pad4, List.cons.injEq, and_true] at h
  have e1 : a / 1000 = b / 1000 := digitChar_inj (by omega) (by omega) h.1
  have e2 : a / 100 % 10 = b / 100 % 10 :=
    digitChar_inj (Nat.mod_lt _ (by omega)) (Nat.mod_lt _ (by omega)) h.2.1
  have e3 : a / 10 % 10 = b / 10 % 10 :=
    digitChar_inj (Nat.mod_lt _ (by omega)) (Nat.mod_lt _ (by omega)) h.2.2.1
  have e4 : a % 10 = b % 10 :=
    digitChar_inj (Nat.mod_lt _ (by omega)) (Nat.mod_lt _ (by omega)) h.2.2.2
  omega

/-- The strftime rendering `%Y%m%d-%H%M%S` is injective on in-range
timestamps: its seven fields occupy fixed character positions. -/
theorem strftimeCompact_inj {t1 t2 : Timestamp}
    (h1 : t1.Valid) (h2 : t2.Valid)
    (h : strftimeCompact t1 = strftimeCompact t2) : t1 = t2 := by
  obtain ⟨y1, mo1, d1, hh1, mi1, s1⟩ := t1
  obtain ⟨y2, mo2, d2, hh2, mi2, s2⟩ := t2
  obtain ⟨hy1, hmo1, hd1, hhh1, hmi1, hs1⟩ := h1
  obtain ⟨hy2, hmo2, hd2, hhh2, hmi2, hs2⟩ := h2
  simp only [strftimeCompact, pad4, pad2, List.cons_append, List.nil_append,
    List.cons.injEq, and_true, true_and] at h
  simp only [Timestamp.mk.injEq]
  refine ⟨pad4_inj hy1 hy2 ?_, pad2_inj hmo1 hmo2 ?_, pad2_inj hd1 hd2 ?_,
    pad2_inj hhh1 hhh2 ?_, pad2_inj hmi1 hmi2 ?_, pad2_inj hs1 hs2 ?_⟩ <;>
    simp only [pad4, pad2, List.cons.injEq, and_true] <;> tauto

/-- The saved-photo filename is injective on in-range timestamps. -/
theorem photoFilename_inj {t1 t2 : Timestamp}
    (h1 : t1.Valid) (h2 : t2.Valid)
    (h : photoFilename t1 = photoFilename t2) : t1 = t2 := by
  have hdata : "images/image-".data ++ strftimeCompact t1 ++ ".jpg".data =
      "images/image-".data ++ strftimeCompact t2 ++ ".jpg".data :=
    congrArg String.data h
  have hmid : "images/image-".data ++ strftimeCompact t1 =
      "images/image-".data ++ strftimeCompact t2 :=
    List.append_cancel_right hdata
  exact strftimeCompact_inj h1 h2 (List.append_cancel_left hmid)

/-! Claim theorems. -/

/-- Claim C1: every invocation of `capture_and_add_image` terminates with a
descriptive string — the missing-chat-context message, the no-video-track
message, the timeout message, the success confirmation, or `"Error: "`
followed by the fault's message — for every state, every frame-arrival
schedule and every fault behaviour of the encode and append calls; in the
embedding the operation is a total function into strings, so no exception
crosses its boundary. -/
theorem capture_and_add_image_returns_descriptive_string (st : AgentState)
    (arr : Nat → Option VideoFrame) (faults : Faults) :
    (capture_and_add_image st arr faults).result = "Error: chat_ctx is not set" ∨
    (capture_and_add_image st arr faults).result = "No video track available" ∨
    (capture_and_add_image st arr faults).result = "No video frame available" ∨
    (∃ f, (capture_and_add_image st arr faults).result = successMessage f) ∨
    (∃ e, (capture_and_add_image st arr faults).result = "Error: " ++ e) := by
  unfold capture_and_add_image
  cases hc : st.chatCtx with
  | none => left; rfl
  | some ctx =>
    cases hp : getVideoPublication st.participants with
    | none => right; left; rfl
    | some pub =>
      simp only
      cases htb : tryBody ctx (pollLoop arr 10 0 st.latestVideoFrame).1 faults with
      | error e =>
        simp only [htb]
        right; right; right; right
        exact ⟨e, rfl⟩
      | ok res =>
        simp only [htb]
        cases tryBody_ok_result ctx (pollLoop arr 10 0 st.latestVideoFrame).1
            faults res htb with
        | inl h => right; right; left; exact h
        | inr h =>
          obtain ⟨f, hf⟩ := h
          right; right; right; left
          exact ⟨f, hf⟩

/-- Claim C2: whenever a video publication is selected, the first recorded
side effect of `capture_and_add_image` is `set_subscribed(True)` on that
publication, and on return its subscription flag is false — on every outcome
(success, timeout, or an internal exception of the encode or append call). -/
theorem capture_subscribe_then_unsubscribe (st : AgentState)
    (arr : Nat → Option VideoFrame) (faults : Faults) (pub : TrackPublication)
    (hctx : ∃ c, st.chatCtx = some c)
    (hpub : getVideoPublication st.participants = some pub) :
    (capture_and_add_image st arr faults).trace.head? =
      some (Effect.setSubscribed pub.sid true) ∧
    (capture_and_add_image st arr faults).state.subs pub.sid = false := by
  obtain ⟨c, hc⟩ := hctx
  unfold capture_and_add_image
  simp only [hc, hpub]
  cases htb : tryBody c (pollLoop arr 10 0 st.latestVideoFrame).1 faults with
  | error e => simp [setSub]
  | ok res => simp [setSub]

/-- Witness for C2 at a concrete room: one remote participant with one video
publication, no frame ever arriving, no faults. -/
theorem capture_subscribe_then_unsubscribe_witness :
    (capture_and_add_image wState noArrivals noFaults).trace.head? =
      some (Effect.setSubscribed wPub.sid true) ∧
    (capture_and_add_image wState noArrivals noFaults).state.subs wPub.sid =
      false :=
  capture_subscribe_then_unsubscribe wState noArrivals noFaults wPub
    ⟨[], rfl⟩ rfl

/-- Claim C5: when no remote participant has a video publication but the
chat context is set, `capture_and_add_image` returns the no-video-track
message, records no side effect at all — in particular no subscription
toggle in either direction — and leaves the state untouched. -/
theorem capture_no_video_track (st : AgentState)
    (arr : Nat → Option VideoFrame) (faults : Faults)
    (hctx : ∃ c, st.chatCtx = some c)
    (hpub : getVideoPublication st.participants = none) :
    (capture_and_add_image st arr faults).result = "No video track available" ∧
    (capture_and_add_image st arr faults).trace = [] ∧
    (∀ sid v, Effect.setSubscribed sid v ∉
      (capture_and_add_image st arr faults).trace) ∧
    (capture_and_add_image st arr faults).state = st := by
  obtain ⟨c, hc⟩ := hctx
  simp [capture_and_add_image, hc, hpub]

/-- Witness for C5 at a concrete room whose only participant publishes only
an audio track. -/
theorem capture_no_video_track_witness :
    (capture_and_add_image wStateNoVideo noArrivals noFaults).result =
      "No video track available" ∧
    (capture_and_add_image wStateNoVideo noArrivals noFaults).trace = [] ∧
    (∀ sid v, Effect.setSubscribed sid v ∉
      (capture_and_add_image wStateNoVideo noArrivals noFaults).trace) ∧
    (capture_and_add_image wStateNoVideo noArrivals noFaults).state =
      wStateNoVideo :=
  capture_no_video_track wStateNoVideo noArrivals noFaults ⟨[], rfl⟩ rfl

/-- Claim C7: the video-stream task stores exactly the first frame of the
stream into the slot, saves exactly that one photo, and ignores the rest of
the stream: its outcome does not depend on the frames after the first, and
on an empty stream it stores and saves nothing. -/
theorem process_video_stream_first_frame_only (t : Timestamp)
    (slot : Option VideoFrame) (frame : VideoFrame)
    (rest rest' : List VideoFrame) :
    process_video_stream t slot (frame :: rest) =
      (some frame, [save_photo t (some frame)]) ∧
    process_video_stream t slot (frame :: rest) =
      process_video_stream t slot (frame :: rest') ∧
    process_video_stream t slot [] = (slot, []) :=
  ⟨rfl, rfl, rfl⟩

/-- Claim C8: `_get_video_publication` coincides with the first-match search
over participants in order and, within each participant, publications in
order, and it returns `none` exactly when no publication is of video kind. -/
theorem getVideoPublication_first_match (ps : List Participant) :
    getVideoPublication ps = specFirstVideoPublication ps ∧
    (getVideoPublication ps = none ↔
      ∀ pub ∈ (ps.map Participant.trackPublications).flatten,
        pub.kind ≠ TrackKind.video) := by
  refine ⟨getVideoPublication_eq_spec_aux ps, ?_⟩
  rw [getVideoPublication_eq_spec_aux ps]
  unfold specFirstVideoPublication
  rw [List.find?_eq_none]
  constructor
  · intro h pub hmem
    have := h pub hmem
    simpa using this
  · intro h pub hmem
    simpa using h pub hmem

/-- Claim C3: when the chat context is set, a publication is selected, the
frame slot starts empty and no frame ever arrives, the call sleeps exactly
ten times — 10 sleeps of 0.5 time-units, 5 time-units in total — returns the
timeout message, and ends with the publication unsubscribed; and for every
arrival schedule the loop sleeps at most ten times. -/
theorem capture_timeout_budget (st : AgentState) (arr : Nat → Option VideoFrame)
    (faults : Faults) (pub : TrackPublication)
    (hctx : ∃ c, st.chatCtx = some c)
    (hpub : getVideoPublication st.participants = some pub)
    (hslot : st.latestVideoFrame = none)
    (hnone : ∀ n, arr n = none) :
    (capture_and_add_image st arr faults).sleeps = 10 ∧
    ((capture_and_add_image st arr faults).sleeps : ℚ) * (1 / 2) = 5 ∧
    (capture_and_add_image st arr faults).result = "No video frame available" ∧
    (capture_and_add_image st arr faults).state.subs pub.sid = false ∧
    ∀ arr', (capture_and_add_image st arr' faults).sleeps ≤ 10 := by
  obtain ⟨c, hc⟩ := hctx
  have hp : pollLoop arr 10 0 st.latestVideoFrame = (none, 10) := by
    rw [hslot]
    simpa using pollLoop_no_arrival arr hnone 10 0
  have hbound : ∀ arr', (capture_and_add_image st arr' faults).sleeps ≤ 10 := by
    intro arr'
    unfold capture_and_add_image
    simp only [hc, hpub]
    cases htb : tryBody c (pollLoop arr' 10 0 st.latestVideoFrame).1 faults with
    | error e =>
      simp only [htb]
      simpa using pollLoop_sleeps_le arr' 10 0 st.latestVideoFrame
    | ok res =>
      simp only [htb]
      simpa using pollLoop_sleeps_le arr' 10 0 st.latestVideoFrame
  have hsl : (capture_and_add_image st arr faults).sleeps = 10 := by
    simp [capture_and_add_image, hc, hpub, hp, tryBody]
  refine ⟨hsl, by rw [hsl]; norm_num, ?_, ?_, hbound⟩
  · simp [capture_and_add_image, hc, hpub, hp, tryBody]
  · simp [capture_and_add_image, hc, hpub, hp, tryBody, setSub]

/-- Witness for C3 at a concrete room with one video publication and an
arrival schedule that never delivers a frame. -/
theorem capture_timeout_budget_witness :
    (capture_and_add_image wState noArrivals noFaults).sleeps = 10 ∧
    ((capture_and_add_image wState noArrivals noFaults).sleeps : ℚ) * (1 / 2) = 5 ∧
    (capture_and_add_image wState noArrivals noFaults).result =
      "No video frame available" ∧
    (capture_and_add_image wState noArrivals noFaults).state.subs wPub.sid =
      false ∧
    ∀ arr', (capture_and_add_image wState arr' noFaults).sleeps ≤ 10 :=
  capture_timeout_budget wState noArrivals noFaults wPub ⟨[], rfl⟩ rfl rfl
    (fun _ => rfl)

/-- Claim C4: when the first frame arrives during sleep `k` of the poll loop
(`k < 10`) and the encode and append calls do not fault, the call returns
the confirmation string carrying the frame's width and height, appends that
frame to the chat context as an image entry with role "user", and the frame
slot is `none` after the call returns. -/
theorem capture_success_appends_frame (st : AgentState)
    (arr : Nat → Option VideoFrame) (faults : Faults) (pub : TrackPublication)
    (ctx : List ChatEntry) (frame : VideoFrame) (k : Nat)
    (hctx : st.chatCtx = some ctx)
    (hpub : getVideoPublication st.participants = some pub)
    (hslot : st.latestVideoFrame = none)
    (hk : k < 10)
    (hbefore : ∀ j, j < k → arr j = none)
    (hfr : arr k = some frame)
    (henc : faults.encode = none)
    (happ : faults.append = none) :
    (capture_and_add_image st arr faults).result =
      "Image captured and added to context. Dimensions: " ++
        toString frame.width ++ "x" ++ toString frame.height ∧
    (capture_and_add_image st arr faults).state.chatCtx =
      some (ctx ++ [ChatEntry.images "user" [frame]]) ∧
    (capture_and_add_image st arr faults).state.latestVideoFrame = none := by
  have hp : pollLoop arr 10 0 st.latestVideoFrame = (some frame, 0 + k + 1) := by
    rw [hslot]
    exact pollLoop_first_arrival arr frame k 10 0 hk
      (fun j hj => by simpa using hbefore j hj) (by simpa using hfr)
  refine ⟨?_, ?_, ?_⟩ <;>
    simp [capture_and_add_image, hctx, hpub, hp, tryBody, henc, happ,
      successMessage]

/-- Witness for C4: the frame arrives during the third sleep (k = 2). -/
theorem capture_success_appends_frame_witness :
    (capture_and_add_image wState (arrivalAt 2 wFrame) noFaults).result =
      "Image captured and added to context. Dimensions: " ++
        toString wFrame.width ++ "x" ++ toString wFrame.height ∧
    (capture_and_add_image wState (arrivalAt 2 wFrame) noFaults).state.chatCtx =
      some ([] ++ [ChatEntry.images "user" [wFrame]]) ∧
    (capture_and_add_image wState (arrivalAt 2 wFrame)
      noFaults).state.latestVideoFrame = none :=
  capture_success_appends_frame wState (arrivalAt 2 wFrame) noFaults wPub
    [] wFrame 2 rfl rfl rfl (by omega)
    (fun j hj => by simp only [arrivalAt, if_neg (by omega : ¬ j = 2)])
    (by simp [arrivalAt]) rfl rfl

/-- Any image entry recorded in the trace of `capture_and_add_image` holds
the frame that the poll loop returned. -/
theorem capture_trace_append (st : AgentState) (arr : Nat → Option VideoFrame)
    (faults : Faults) (fr : VideoFrame) (role : String) :
    Effect.appendImages role [fr] ∈ (capture_and_add_image st arr faults).trace →
    (pollLoop arr 10 0 st.latestVideoFrame).1 = some fr := by
  unfold capture_and_add_image
  cases hc : st.chatCtx with
  | none => intro h; simp at h
  | some c =>
    cases hp : getVideoPublication st.participants with
    | none => intro h; simp at h
    | some pub =>
      simp only
      cases htb : tryBody c (pollLoop arr 10 0 st.latestVideoFrame).1 faults with
      | error e => simp only [htb]; intro h; simp at h
      | ok res =>
        simp only [htb]
        intro h
        cases h with
        | tail b h =>
          rcases List.mem_append.mp h with h | h
          · exact tryBody_append_mem c _ faults res fr role htb h
          · simp at h

/-- Claim C9: the frame slot is `none` after a completed capture call, and
any frame that a second, subsequent call appends arrived through the second
call's own arrival schedule during one of its ten sleeps; a frame captured
by the first call is never reused by the second. -/
theorem sequential_capture_frame_fresh (st : AgentState)
    (arr1 : Nat → Option VideoFrame) (faults1 : Faults)
    (arr2 : Nat → Option VideoFrame) (faults2 : Faults)
    (fr : VideoFrame) (role : String)
    (h : Effect.appendImages role [fr] ∈
      (capture_and_add_image (capture_and_add_image st arr1 faults1).state
        arr2 faults2).trace) :
    (capture_and_add_image st arr1 faults1).state.latestVideoFrame = none ∧
    ∃ k, k < 10 ∧ arr2 k = some fr := by
  by_cases hcc : ∃ c, st.chatCtx = some c
  · obtain ⟨c, hc⟩ := hcc
    by_cases hpp : ∃ pub, getVideoPublication st.participants = some pub
    · obtain ⟨pub, hp⟩ := hpp
      have ha : (capture_and_add_image st arr1 faults1).state.latestVideoFrame =
          none := by
        unfold capture_and_add_image
        simp only [hc, hp]
        cases htb : tryBody c (pollLoop arr1 10 0 st.latestVideoFrame).1 faults1 with
        | error e => simp [htb]
        | ok res => simp [htb]
      refine ⟨ha, ?_⟩
      have hslot := capture_trace_append _ arr2 faults2 fr role h
      rw [ha] at hslot
      obtain ⟨k, hk1, hk2, hk3⟩ := pollLoop_arrival_of_some arr2 fr 10 0 hslot
      exact ⟨k, by omega, hk3⟩
    · have hp' : getVideoPublication st.participants = none := by
        cases hgp : getVideoPublication st.participants with
        | none => rfl
        | some p => exact absurd ⟨p, hgp⟩ hpp
      have hst1 : (capture_and_add_image st arr1 faults1).state = st := by
        unfold capture_and_add_image
        simp [hc, hp']
      rw [hst1] at h
      have htr : (capture_and_add_image st arr2 faults2).trace = [] := by
        unfold capture_and_add_image
        simp [hc, hp']
      rw [htr] at h
      simp at h
  · have hc' : st.chatCtx = none := by
      cases hcx : st.chatCtx with
      | none => rfl
      | some c => exact absurd ⟨c, hcx⟩ hcc
    have hst1 : (capture_and_add_image st arr1 faults1).state = st := by
      unfold capture_and_add_image
      simp [hc']
    rw [hst1] at h
    have htr : (capture_and_add_image st arr2 faults2).trace = [] := by
      unfold capture_and_add_image
      simp [hc']
    rw [htr] at h
    simp at h

/-- Witness for C9: a first call that times out followed by a second call
whose frame arrives during its first sleep. -/
theorem sequential_capture_frame_fresh_witness :
    (capture_and_add_image wState noArrivals noFaults).state.latestVideoFrame =
      none ∧
    ∃ k, k < 10 ∧ arrivalAt 0 wFrame k = some wFrame :=
  sequential_capture_frame_fresh wState noArrivals noFaults
    (arrivalAt 0 wFrame) noFaults wFrame "user" (by decide)

/-- Claim C10: the chat context either comes out of `capture_and_add_image`
exactly as it went in, or — only on the success path — gains precisely one
image entry with role "user", in which case the returned string is the
success confirmation for that frame; every failure path leaves the chat
context unchanged. -/
theorem capture_chat_ctx_changed_only_on_success (st : AgentState)
    (arr : Nat → Option VideoFrame) (faults : Faults) :
    (capture_and_add_image st arr faults).state.chatCtx = st.chatCtx ∨
    ∃ ctx frame, st.chatCtx = some ctx ∧
      (capture_and_add_image st arr faults).state.chatCtx =
        some (ctx ++ [ChatEntry.images "user" [frame]]) ∧
      (capture_and_add_image st arr faults).result = successMessage frame := by
  unfold capture_and_add_image
  cases hc : st.chatCtx with
  | none => left; simp [hc]
  | some c =>
    cases hp : getVideoPublication st.participants with
    | none => left; simp [hc]
    | some pub =>
      simp only
      cases hs : (pollLoop arr 10 0 st.latestVideoFrame).1 with
      | none => left; simp [tryBody, hs, hc]
      | some frame =>
        cases he : faults.encode with
        | some msg => left; simp [tryBody, hs, he, hc]
        | none =>
          cases ha : faults.append with
          | some msg => left; simp [tryBody, hs, he, ha, hc]
          | none =>
            right
            exact ⟨c, frame, rfl, by simp [tryBody, hs, he, ha],
              by simp [tryBody, hs, he, ha]⟩

/-- Claim C6, counterexample: two distinct capture invocations that run
`save_photo` during the same wall-clock second — the resolution of the
`%Y%m%d-%H%M%S` filename — write the very same file, so the saved file name
is not unique per capture. -/
theorem save_photo_filename_collision :
    cexCall1 ≠ cexCall2 ∧
    savedFilename cexCall1 = savedFilename cexCall2 ∧
    savedFilename cexCall1 = some (photoFilename cexTime) :=
  ⟨by decide, rfl, rfl⟩

/-- Claim C6, amended: the saved file name determines and is determined by
the capture's timestamp at one-second resolution — captures at distinct
seconds get distinct file names, while captures within the same second
collide (as the counterexample shows). -/
theorem photoFilename_unique_iff_distinct_second (t1 t2 : Timestamp)
    (h1 : t1.Valid) (h2 : t2.Valid) :
    photoFilename t1 = photoFilename t2 ↔ t1 = t2 :=
  ⟨photoFilename_inj h1 h2, fun h => by rw [h]⟩

/-- Witness for the amended C6 at two concrete timestamps one second
apart. -/
theorem photoFilename_unique_iff_distinct_second_witness :
    photoFilename cexTime = photoFilename wTime2 ↔ cexTime = wTime2 :=
  photoFilename_unique_iff_distinct_second cexTime wTime2 (by decide) (by decide)
